import Mathlib

/-!
Verification of the HTTP request manager (NestJS `HttpService` built on axios):
a shallow embedding of `http.service.ts` (retry setup, cache interceptors,
cache-key generation, middleware chains) together with the configuration
surface of `http.interface.ts`, and theorems checking the specification's
claims against it.
-/

namespace HttpRM

/-- JavaScript primitive values appearing in request params / bodies.
`bigint` models a `BigInt`, which `JSON.stringify` refuses to serialize
(it throws), exercising the `catch` fallback of `generateCacheKey`. -/
inductive JsPrim where
  | str (s : String)
  | num (n : Int)
  | boolean (b : Bool)
  | null
  | bigint (n : Int)
deriving DecidableEq

/-- A JavaScript reference: either a primitive value or a pointer to an
object living in a heap.  The explicit heap lets the model express the
circular object graphs that `generateCacheKey` must survive. -/
inductive JsRef where
  | prim (p : JsPrim)
  | obj (id : Nat)
deriving DecidableEq

/-- A JavaScript object: ordered named fields. -/
abbrev JsObj := List (String × JsRef)

/-- A heap of JavaScript objects, keyed by object identity. -/
abbrev JsHeap := List (Nat × JsObj)

/-- Escaping of one character inside a JSON string literal. -/
def jsonEscapeChar (c : Char) : String :=
  if c = '"' then "\\\"" else if c = '\\' then "\\\\" else String.singleton c

/-- JSON string literal quoting. -/
def jsonQuote (s : String) : String :=
  "\"" ++ String.join (s.toList.map jsonEscapeChar) ++ "\""

/-- JavaScript `.toLowerCase()` on the ASCII strings (HTTP methods) the
service lowercases. -/
def jsToLower (s : String) : String :=
  ⟨s.data.map Char.toLower⟩

/-- Rendering of a primitive by `JSON.stringify`; a `BigInt` makes it throw. -/
def stringifyPrim : JsPrim → Except String String
  | .str s => .ok (jsonQuote s)
  | .num n => .ok (toString n)
  | .boolean b => .ok (if b then "true" else "false")
  | .null => .ok "null"
  | .bigint _ => .error "Do not know how to serialize a BigInt"

/-- Serialization of the fields of one object, threading the visited set;
`sv` serializes one field value. -/
def stringifyFieldsGo (sv : List Nat → JsRef → Except String (String × List Nat)) :
    List Nat → JsObj → Except String (String × List Nat)
  | seen, [] => .ok ("", seen)
  | seen, (k, v) :: rest =>
    match sv seen v with
    | .error e => .error e
    | .ok r =>
      match stringifyFieldsGo sv r.2 rest with
      | .error e => .error e
      | .ok r' =>
        .ok (jsonQuote k ++ ":" ++ r.1 ++ (if rest.isEmpty then "" else ",") ++ r'.1, r'.2)

/-- Model of `JSON.stringify(value, getCircularReplacer())` from
`generateCacheKey`: the replacer keeps a `WeakSet` of objects already
visited during the whole traversal (modelled by the threaded `seen` list
of object ids) and replaces any repeated object by the sentinel string
`[Circular Reference]`.  `fuel` bounds the nesting depth; every entry into
an unvisited object consumes one unit, so `h.length + 1` is always enough. -/
def stringifyVal : Nat → JsHeap → List Nat → JsRef → Except String (String × List Nat)
  | _, _, seen, .prim p => (stringifyPrim p).map (fun s => (s, seen))
  | fuel, h, seen, .obj id =>
    if seen.contains id then .ok (jsonQuote "[Circular Reference]", seen)
    else
      match fuel with
      | 0 => .error "out of fuel"
      | fuel' + 1 =>
        match h.lookup id with
        | none => .ok ("null", seen)
        | some fields =>
          match stringifyFieldsGo (stringifyVal fuel' h) (id :: seen) fields with
          | .error e => .error e
          | .ok r => .ok ("\x7b" ++ r.1 ++ "\x7d", r.2)

/-- Serialization of an object's fields at a given fuel. -/
def stringifyFields (fuel : Nat) (h : JsHeap) (seen : List Nat) (fields : JsObj) :
    Except String (String × List Nat) :=
  stringifyFieldsGo (stringifyVal fuel h) seen fields

/-- Top-level `JSON.stringify` call on a value rooted in heap `h`, with the
fuel `generateCacheKey` always has available. -/
def stringifyTop (h : JsHeap) (v : JsRef) : Except String String :=
  (stringifyVal (h.length + 1) h [] v).map (fun r => r.1)

/-- The `CacheStrategy` enum of `http.interface.ts`. -/
inductive CacheStrategy where
  | cacheFirst
  | sideCache
  | onlyCache
  | noCache
deriving DecidableEq

/-- The `CacheRouteConfig` interface: a per-route cache override. -/
structure CacheRouteConfig where
  pattern : String
  strategy : CacheStrategy
  ttl : Option Int := none
  methods : Option (List String) := none

/-- Axios request configuration, restricted to the fields the service
reads: method, url, params and data (both rooted in an explicit heap so
circular structures are expressible), and headers. -/
structure Config where
  method : Option String := none
  url : Option String := none
  heap : JsHeap := []
  params : Option JsRef := none
  data : Option JsRef := none
  headers : List (String × String) := []
deriving DecidableEq

/-- The `cacheKey` option: a fixed string or a key function. -/
inductive CacheKeyCfg where
  | fixed (s : String)
  | keyFn (f : Config → String)

/-- An axios response, restricted to the fields `setupCache` touches. -/
structure Response where
  data : Option JsRef := none
  status : Int
  statusText : String := ""
  headers : List (String × String) := []
  config : Config
deriving DecidableEq

/-- The `CacheOptions` interface of `http.interface.ts`. -/
structure CacheOptions where
  ttl : Option Int := none
  max : Option Int := none
  methods : Option (List String) := none
  strategy : Option CacheStrategy := none
  routes : List CacheRouteConfig := []
  shouldCache : Option (Response → Bool) := none
  cacheKey : Option CacheKeyCfg := none

/-- `generateCacheKey` from `http.service.ts`: a configured key wins;
otherwise the key is `http-cache:method:url:params:data` with params and
data serialized circular-safely, falling back to the coarse
`params-present` / `data-present` markers when serialization throws
(both serializations sit in one `try`, so one failure degrades both). -/
def generateCacheKey (config : Config) (options : CacheOptions) : String :=
  match options.cacheKey with
  | some (.fixed s) => s
  | some (.keyFn f) => f config
  | none =>
    let methodLower := jsToLower (config.method.getD "")
    let method := if methodLower = "" then "get" else methodLower
    let url := config.url.getD ""
    let paramsRes : Except String String :=
      match config.params with
      | none => .ok ""
      | some v => stringifyTop config.heap v
    let dataRes : Except String String :=
      match config.data with
      | none => .ok ""
      | some v => stringifyTop config.heap v
    let pd : String × String :=
      match paramsRes, dataRes with
      | .ok p, .ok d => (p, d)
      | _, _ =>
        (if config.params.isSome then "params-present" else "",
         if config.data.isSome then "data-present" else "")
    "http-cache:" ++ method ++ ":" ++ url ++ ":" ++ pd.1 ++ ":" ++ pd.2

/-- The "safe copy" taken before caching a response in `setupCache`:
data, status, statusText and headers are kept, and the attached request
config is reduced to its url, method and headers (adapters, transformers
and the params/data graph are dropped). -/
def safeCopy (r : Response) : Response :=
  { data := r.data
    status := r.status
    statusText := r.statusText
    headers := r.headers
    config :=
      { method := r.config.method
        url := r.config.url
        headers := r.config.headers } }

/-- The cache store seen through `cacheManager.get` / `cacheManager.set`,
with fault-injection flags so store failures can be exercised. -/
structure Store where
  entries : List (String × Response) := []
  getFails : Bool := false
  setFails : Bool := false
deriving DecidableEq

/-- Replace or insert one store entry. -/
def upsert (es : List (String × Response)) (k : String) (v : Response) :
    List (String × Response) :=
  match es with
  | [] => [(k, v)]
  | (k', v') :: rest => if k' = k then (k, v) :: rest else (k', v') :: upsert rest k v

/-- One observable cache-store operation issued by the interceptors. -/
inductive StoreOp where
  | getOp (key : String)
  | setOp (key : String) (value : Response) (ttl : Int)
deriving DecidableEq

/-- `options.ttl || 60000`: a JavaScript falsy check, so an explicit
`ttl: 0` also selects the 60000 ms default. -/
def effectiveTtl (ttl : Option Int) : Int :=
  match ttl with
  | some t => if t = 0 then 60000 else t
  | none => 60000

/-- Result of the cache request interceptor: either proceed (optionally
with the axios adapter replaced so a cached response is resolved instead
of hitting the network), or reject the request. -/
inductive InterceptResult where
  | proceed (config : Config) (adapterOverride : Option Response)
  | rejected (errMsg : String)
deriving DecidableEq

/-- The request interceptor installed by `setupCache`: for cacheable
methods it computes the cache key and reads the store, and on a hit it
replaces `config.adapter` with one resolving the cached response.  The
store read is NOT inside any `try`, so a failing `cacheManager.get`
rejects the request.  Returns the result plus the store operations
issued. -/
def cacheRequestInterceptor (options : CacheOptions) (st : Store) (config : Config) :
    InterceptResult × List StoreOp :=
  if (options.methods.getD ["get"]).contains (jsToLower (config.method.getD "")) then
    if st.getFails then
      (.rejected "cache store get failed", [.getOp (generateCacheKey config options)])
    else
      match st.entries.lookup (generateCacheKey config options) with
      | some cached => (.proceed config (some cached), [.getOp (generateCacheKey config options)])
      | none => (.proceed config none, [.getOp (generateCacheKey config options)])
  else
    (.proceed config none, [])

/-- The response interceptor installed by `setupCache`: for cacheable
methods (and responses accepted by `shouldCache`) it stores a safe copy
under the recomputed key with `options.ttl || 60000`; the store write is
wrapped in `try`/`catch`, so a failing `cacheManager.set` is logged and
skipped.  Returns the response passed on, the new store, and the store
operations issued. -/
def cacheResponseInterceptor (options : CacheOptions) (st : Store) (response : Response) :
    Response × Store × List StoreOp :=
  if (options.methods.getD ["get"]).contains (jsToLower (response.config.method.getD "")) then
    if (match options.shouldCache with
        | some f => f response
        | none => true) then
      if st.setFails then
        (response, st,
         [.setOp (generateCacheKey response.config options) (safeCopy response)
            (effectiveTtl options.ttl)])
      else
        (response,
         { st with
            entries := upsert st.entries (generateCacheKey response.config options)
              (safeCopy response) },
         [.setOp (generateCacheKey response.config options) (safeCopy response)
            (effectiveTtl options.ttl)])
    else (response, st, [])
  else (response, st, [])

/-- Terminal outcome of one request through the cache pipeline. -/
inductive Outcome where
  | success (r : Response)
  | failure (errMsg : String)
deriving DecidableEq

/-- One request through the axios instance with the two `setupCache`
interceptors installed: the request interceptor may replace the adapter
(cache hit) or reject (store read failure); the adapter is either the
cached response or the live transport; the response interceptor then
refreshes the store.  Returns the outcome, the final store, the number of
transport invocations, and the store-operation log. -/
def runCachePipeline (options : CacheOptions) (st : Store)
    (transport : Config → Response) (config : Config) :
    Outcome × Store × Nat × List StoreOp :=
  match cacheRequestInterceptor options st config with
  | (.rejected msg, ops) => (.failure msg, st, 0, ops)
  | (.proceed _ (some cached), ops) =>
    ((.success (cacheResponseInterceptor options st cached).1 : Outcome),
     (cacheResponseInterceptor options st cached).2.1, 0,
     ops ++ (cacheResponseInterceptor options st cached).2.2)
  | (.proceed config' none, ops) =>
    ((.success (cacheResponseInterceptor options st (transport config')).1 : Outcome),
     (cacheResponseInterceptor options st (transport config')).2.1, 1,
     ops ++ (cacheResponseInterceptor options st (transport config')).2.2)

/-- An axios error as far as `setupRetry`'s retry condition reads it:
`error.response.status` when a response arrived, `error.config.method`,
and a tag distinguishing the error object (so "surfaced unmodified" is
expressible). -/
structure ErrInfo where
  response : Option Int := none
  method : Option String := none
  tag : String := ""
deriving DecidableEq

/-- The `RetryOptions` interface of `http.interface.ts`. -/
structure RetryOptions where
  retries : Option Int := none
  retryDelay : Option Int := none
  statusCodesToRetry : Option (List Int) := none
  methodsToRetry : Option (List String) := none
  retryCondition : Option (ErrInfo → Bool) := none

/-- Modelled from the spec: `axiosRetry.isNetworkError` comes from the
`axios-retry` dependency, not this repository; per §4.2/§7 of the spec a
network-level failure is one where no response was received. -/
def isNetworkError (e : ErrInfo) : Bool :=
  e.response.isNone

/-- `options.retries || 3` from `setupRetry`: a JavaScript falsy check,
so an explicit `retries: 0` also selects the default of 3. -/
def effectiveRetries (retries : Option Int) : Int :=
  match retries with
  | some r => if r = 0 then 3 else r
  | none => 3

/-- The `retryCondition` closure `setupRetry` passes to `axiosRetry`:
a user-supplied predicate fully decides; otherwise retry on a network
error, or when the status is in the retryable-status set and the
lowercased method is in the retryable-method set. -/
def retryConditionImpl (options : RetryOptions) (error : ErrInfo) : Bool :=
  match options.retryCondition with
  | some f => f error
  | none =>
    let statusCodesToRetry := options.statusCodesToRetry.getD [408, 429, 500, 502, 503, 504]
    let methodsToRetry := options.methodsToRetry.getD ["get", "head", "options", "delete", "put"]
    isNetworkError error ||
      (match error.response, error.method with
       | some status, some method =>
         statusCodesToRetry.contains status && methodsToRetry.contains (jsToLower method)
       | _, _ => false)

/-- Modelled from the spec: the retry loop wrapping the transport lives in
the `axios-retry` dependency, not under src/.  Per §4.2, each attempt is a
full transport invocation; a failed attempt is retried while the retry
condition accepts the error and the attempt count has not exceeded the
configured maximum; the final failure is surfaced as-is (not wrapped).
`left` counts the attempts still allowed after the current one.  Returns
the final result and the number of transport invocations. -/
def runRetryAux (cond : ErrInfo → Bool) (transport : Nat → Except ErrInfo Response) :
    Nat → Nat → Except ErrInfo Response × Nat
  | attempt, 0 => (transport attempt, 1)
  | attempt, left + 1 =>
    match transport attempt with
    | .ok r => (.ok r, 1)
    | .error e =>
      if cond e then
        let r := runRetryAux cond transport (attempt + 1) left
        (r.1, r.2 + 1)
      else (.error e, 1)

/-- Modelled from the spec: run a request under a retry policy allowing at
most `maxAttempts` transport invocations. -/
def runRetry (maxAttempts : Nat) (cond : ErrInfo → Bool)
    (transport : Nat → Except ErrInfo Response) : Except ErrInfo Response × Nat :=
  runRetryAux cond transport 0 (maxAttempts - 1)

/-- A middleware entry (the Request/Response/ErrorMiddleware interfaces):
an optional priority and a processing function over the stage payload. -/
structure Middleware (α : Type) where
  priority : Option Int := none
  process : α → α

/-- `(m.priority || 0)`: the sort key used by `setupInterceptors`; a
missing priority counts as 0. -/
def prio {α : Type} (m : Middleware α) : Int :=
  m.priority.getD 0

/-- `[...middlewares].sort((a, b) => (a.priority || 0) - (b.priority || 0))`
performed before each execution pass; JavaScript `Array.prototype.sort`
is stable, modelled by stable merge sort. -/
def sortMiddlewares {α : Type} (ms : List (Middleware α)) : List (Middleware α) :=
  ms.mergeSort (fun a b => decide (prio a ≤ prio b))

/-- `registerRequestMiddleware` / `registerResponseMiddleware` /
`registerErrorMiddleware`: all three just push onto their registry. -/
def registerMiddleware {α : Type} (reg : List (Middleware α)) (m : Middleware α) :
    List (Middleware α) :=
  reg ++ [m]

/-- The payload flowing through the error-middleware chain: either still
an `instanceof Error` value, or a plain object some middleware resolved
the error into. -/
inductive ErrPayload where
  | jsError (e : ErrInfo)
  | value (v : JsObj)
deriving DecidableEq

/-- Terminal state of the error-middleware chain: `resolved` is an axios
fulfillment (the caller sees success), `rejected` an axios rejection.
`invoked` counts the middlewares that actually ran. -/
inductive ChainOutcome where
  | resolved (v : JsObj) (invoked : Nat)
  | rejected (e : ErrInfo) (invoked : Nat)
deriving DecidableEq

/-- Bump the invoked-middleware count of a chain outcome by one. -/
def bumpOutcome : ChainOutcome → ChainOutcome
  | .resolved v n => .resolved v (n + 1)
  | .rejected e n => .rejected e (n + 1)

/-- The error-interceptor loop from `setupInterceptors`: feed the error
through the middlewares in order; as soon as a middleware's result is no
longer `instanceof Error`, return it as a fulfilled value, skipping the
remaining middlewares; if the chain ends with an error, reject with it. -/
def runErrorChain : List (Middleware ErrPayload) → ErrInfo → ChainOutcome
  | [], e => .rejected e 0
  | m :: ms, e =>
    match m.process (.jsError e) with
    | .value v => .resolved v 1
    | .jsError e' => bumpOutcome (runErrorChain ms e')

/-- The full error stage: sort by priority, then run the chain. -/
def runErrorStage (ms : List (Middleware ErrPayload)) (e : ErrInfo) : ChainOutcome :=
  runErrorChain (sortMiddlewares ms) e

/-- Rename the object identities inside a reference.  Object identities
are artifacts of the heap embedding; two configurations that differ only
by such a renaming are structurally equal JavaScript values. -/
def renameRef (f : Nat → Nat) : JsRef → JsRef
  | .prim p => .prim p
  | .obj id => .obj (f id)

/-- Rename the object identities inside an object's fields. -/
def renameObj (f : Nat → Nat) (o : JsObj) : JsObj :=
  o.map (fun kv => (kv.1, renameRef f kv.2))

/-- Rename the object identities of a whole heap. -/
def renameHeap (f : Nat → Nat) (h : JsHeap) : JsHeap :=
  h.map (fun e => (f e.1, renameObj f e.2))

/-- Rename the object identities of a request configuration, leaving its
method, url and headers untouched. -/
def renameConfig (f : Nat → Nat) (cfg : Config) : Config :=
  { cfg with
    heap := renameHeap f cfg.heap
    params := cfg.params.map (renameRef f)
    data := cfg.data.map (renameRef f) }

/-- The retry decision exactly as the specification words it ("the request
method, compared case-insensitively, is in the retryable-method set"),
for comparison with `retryConditionImpl` as translated from the source. -/
def specRetryDecision (options : RetryOptions) (error : ErrInfo) : Bool :=
  match options.retryCondition with
  | some f => f error
  | none =>
    let statusCodesToRetry := options.statusCodesToRetry.getD [408, 429, 500, 502, 503, 504]
    let methodsToRetry := options.methodsToRetry.getD ["get", "head", "options", "delete", "put"]
    isNetworkError error ||
      (match error.response, error.method with
       | some status, some method =>
         statusCodesToRetry.contains status &&
           methodsToRetry.any (fun m => jsToLower m == jsToLower method)
       | _, _ => false)

/-- The `/pokemon/.*` route rule of the example module: side-cache with a
one-hour TTL. -/
def pokemonRouteRule : CacheRouteConfig :=
  { pattern := "/pokemon/.*", strategy := .sideCache, ttl := some 3600000,
    methods := some ["get"] }

/-- The cache options registered by the example module: global TTL 60000
with per-route overrides for the PokeAPI routes. -/
def exampleCacheOptions : CacheOptions :=
  { ttl := some 60000
    routes :=
      [pokemonRouteRule,
       { pattern := "/pokemon-species/.*", strategy := .cacheFirst, ttl := some 3600000 },
       { pattern := "/pokemon?.*", strategy := .cacheFirst, ttl := some 1800000 },
       { pattern := "/type/.*", strategy := .cacheFirst, ttl := some 86400000 }] }

/-- Cache options whose resolved strategy for `/pokemon/25` is side-cache
under every reading: the global strategy and the matching route rule both
say side-cache. -/
def sideCacheOptions : CacheOptions :=
  { ttl := some 60000, strategy := some .sideCache, routes := [pokemonRouteRule] }

/-- A GET request to `/pokemon/25`. -/
def pikachuConfig : Config :=
  { method := some "get", url := some "/pokemon/25" }

/-- The default cache key of `pikachuConfig`. -/
def pikachuKey : String :=
  "http-cache:get:/pokemon/25::"

/-- A previously cached response for `/pokemon/25`. -/
def cachedPikachu : Response :=
  { status := 200, statusText := "OK", data := some (.prim (.str "cached-pokemon-25")),
    config := pikachuConfig }

/-- A transport returning a fresh (different) live response. -/
def liveTransport : Config → Response :=
  fun c =>
    { status := 200, statusText := "OK", data := some (.prim (.str "live-pokemon-25")),
      config := c }

/-- A transport that succeeds and (like axios) attaches the request
configuration to the response. -/
def echoTransport : Config → Response :=
  fun c => { status := 200, statusText := "OK", config := c }

/-- A cyclic request configuration: params points at object 0, whose field
`a` points at object 1, whose field `b` points back at object 0. -/
def cyclicConfig : Config :=
  { method := some "get", url := some "/x",
    heap := [(0, [("a", .obj 1)]), (1, [("b", .obj 0)])],
    params := some (.obj 0) }

/-- Retry options listing the retryable method in upper case. -/
def upperCaseRetryOptions : RetryOptions :=
  { statusCodesToRetry := some [500], methodsToRetry := some ["PUT"] }

/-- A failed PUT attempt that came back with status 500. -/
def put500Error : ErrInfo :=
  { response := some 500, method := some "PUT", tag := "HTTP 500" }

/-- An HTTP 404 error. -/
def err404 : ErrInfo :=
  { response := some 404, method := some "get", tag := "HTTP 404" }

/-- The scenario middleware: converts an HTTP 404 error into the plain
object `\x7bfound: false\x7d`, leaving other payloads alone. -/
def notFound404Middleware : Middleware ErrPayload :=
  { priority := some 5
    process := fun p =>
      match p with
      | .jsError e =>
        if e.response == some 404 then .value [("found", .prim (.boolean false))]
        else .jsError e
      | .value v => .value v }

/-- A middleware that passes every payload through unchanged. -/
def passThroughMiddleware : Middleware ErrPayload :=
  { process := fun p => p }

/-- C1: with a side-cache resolved strategy and a pre-populated store
entry, the code returns the cached envelope to the caller, but the
transport is NOT invoked (the axios adapter is replaced by the cached
response) and the store is rewritten with a safe copy of the OLD cached
value, not with any new transport response — refuting the claim's
"transport still executes" and "store replaced by the new transport
response" while its "caller receives the cached envelope" part holds. -/
theorem sideCache_hit_skips_transport_and_rewrites_stale_value :
    runCachePipeline sideCacheOptions { entries := [(pikachuKey, cachedPikachu)] }
        liveTransport pikachuConfig =
      (.success cachedPikachu,
       { entries := [(pikachuKey, safeCopy cachedPikachu)] }, 0,
       [.getOp pikachuKey, .setOp pikachuKey (safeCopy cachedPikachu) 60000])
    ∧ safeCopy cachedPikachu ≠ safeCopy (liveTransport pikachuConfig) := by
  decide

/-- C2: the cache pipeline never consults `routes` or `strategy` — two
option records differing only there behave identically — and under the
example module's configuration a GET to `/pokemon/25` is cached with the
global TTL 60000, not the 3600000 of its matching `/pokemon/.*` route
rule, refuting first-match route resolution. -/
theorem routes_and_strategy_ignored_by_cache_pipeline :
    (∀ (options : CacheOptions) (st : Store) (transport : Config → Response)
       (config : Config) (routesA routesB : List CacheRouteConfig)
       (stratA stratB : Option CacheStrategy),
       runCachePipeline { options with routes := routesA, strategy := stratA }
           st transport config =
         runCachePipeline { options with routes := routesB, strategy := stratB }
           st transport config)
    ∧ runCachePipeline exampleCacheOptions {} liveTransport pikachuConfig =
        (.success (liveTransport pikachuConfig),
         { entries := [(pikachuKey, safeCopy (liveTransport pikachuConfig))] }, 1,
         [.getOp pikachuKey, .setOp pikachuKey (safeCopy (liveTransport pikachuConfig)) 60000])
    ∧ pokemonRouteRule.ttl = some 3600000 := by
  refine ⟨?_, by decide, rfl⟩
  intro options st transport config routesA routesB stratA stratB
  cases options
  rfl

/-- C8 counterexample: a failing `cacheManager.get` is not absorbed — the
request terminates with the store error, without reaching the transport. -/
theorem failing_cache_read_becomes_terminal_error :
    runCachePipeline {} { getFails := true } liveTransport pikachuConfig =
      (.failure "cache store get failed", { getFails := true }, 0, [.getOp pikachuKey]) := by
  decide

/-- C8 amended: a failing cache write is absorbed (the response passes
through unchanged and the store is untouched), but a failing cache read
on a cacheable request propagates as the request's terminal error and the
transport is never invoked. -/
theorem cache_write_failure_absorbed_read_failure_propagates :
    (∀ (options : CacheOptions) (st : Store) (transport : Config → Response) (config : Config),
      (options.methods.getD ["get"]).contains (jsToLower (config.method.getD "")) = true →
      st.getFails = true →
      runCachePipeline options st transport config =
        (.failure "cache store get failed", st, 0, [.getOp (generateCacheKey config options)]))
    ∧ (∀ (options : CacheOptions) (st : Store) (response : Response),
        st.setFails = true →
        (cacheResponseInterceptor options st response).1 = response ∧
        (cacheResponseInterceptor options st response).2.1 = st) := by
  constructor
  · intro options st transport config h1 h2
    simp at h1
    simp [runCachePipeline, cacheRequestInterceptor, h1, h2]
  · intro options st response h
    unfold cacheResponseInterceptor
    rw [h]
    split
    · split
      · simp
      · exact ⟨rfl, rfl⟩
    · exact ⟨rfl, rfl⟩

/-- C8 witness: the amended theorem applied at a failing read on a GET
request and at a failing write. -/
theorem cache_store_failure_witness :
    runCachePipeline {} { getFails := true } liveTransport pikachuConfig =
      (.failure "cache store get failed", { getFails := true }, 0,
       [.getOp (generateCacheKey pikachuConfig {})])
    ∧ (cacheResponseInterceptor {} { setFails := true } cachedPikachu).1 = cachedPikachu :=
  ⟨cache_write_failure_absorbed_read_failure_propagates.1 {} { getFails := true }
      liveTransport pikachuConfig (by decide) rfl,
   (cache_write_failure_absorbed_read_failure_propagates.2 {} { setFails := true }
      cachedPikachu rfl).1⟩

/-- C4: a POST request under the default configuration is invisible to the
cache (no store read, no store write, the transport runs once and its
response passes through untouched) whatever the strategy, shouldCache or
store contents; and the default retry condition never accepts an error
that carries a response status when the request method is POST. -/
theorem post_never_cached_never_status_retried :
    (∀ (options : CacheOptions) (st : Store) (transport : Config → Response) (config : Config),
      options.methods = none →
      jsToLower (config.method.getD "") = "post" →
      (transport config).config = config →
      runCachePipeline options st transport config = (.success (transport config), st, 1, []))
    ∧ (∀ (ro : RetryOptions) (e : ErrInfo) (s : Int),
        ro.methodsToRetry = none → ro.retryCondition = none →
        e.response = some s →
        jsToLower (e.method.getD "") = "post" →
        retryConditionImpl ro e = false) := by
  constructor
  · intro options st transport config h1 h2 h3
    have hc : (options.methods.getD ["get"]).contains (jsToLower (config.method.getD "")) = false := by
      rw [h1, h2]; decide
    have hr : ((transport config).config.method.getD "") = (config.method.getD "") := by rw [h3]
    simp [runCachePipeline, cacheRequestInterceptor, cacheResponseInterceptor, hc, hr,
      h1, h2]
  · intro ro e s h1 h2 h3 h4
    cases hm : e.method with
    | none => simp [retryConditionImpl, h2, h1, h3, hm, isNetworkError]
    | some m =>
      rw [hm] at h4
      simp only [Option.getD] at h4
      have hnp : (["get", "head", "options", "delete", "put"] : List String).contains
          (jsToLower m) = false := by
        rw [h4]; decide
      simp [retryConditionImpl, h2, h1, h3, hm, isNetworkError, hnp]
      intro _
      rw [h4]
      decide

/-- C4 witness: a POST to `/pokemon` with an empty default configuration,
and a failed POST attempt with status 500. -/
theorem post_never_cached_never_status_retried_witness :
    runCachePipeline {} {} echoTransport { method := some "POST", url := some "/pokemon" } =
      (.success (echoTransport { method := some "POST", url := some "/pokemon" }), {}, 1, [])
    ∧ retryConditionImpl {} { response := some 500, method := some "POST" } = false :=
  ⟨post_never_cached_never_status_retried.1 {} {} echoTransport
      { method := some "POST", url := some "/pokemon" } rfl (by decide) rfl,
   post_never_cached_never_status_retried.2 {} { response := some 500, method := some "POST" }
      500 rfl rfl rfl (by decide)⟩

/-- C3: with the default maximum of 3 attempts (`retries` unset) and a
transport failing every attempt with an error the retry condition
accepts, the transport is invoked exactly 3 times and the error surfaced
is the third attempt's error, unmodified. -/
theorem retry_ceiling_three_attempts_last_error_surfaced :
    ∀ (ro : RetryOptions) (errs : Nat → ErrInfo),
      ro.retries = none →
      (∀ i, retryConditionImpl ro (errs i) = true) →
      runRetry (effectiveRetries ro.retries).toNat (retryConditionImpl ro)
          (fun i => .error (errs i)) =
        (.error (errs 2), 3) := by
  intro ro errs h1 h2
  rw [h1]
  show runRetryAux (retryConditionImpl ro) (fun i => .error (errs i)) 0 2 = (.error (errs 2), 3)
  simp [runRetryAux, h2]

/-- C3 witness: three distinctly tagged network errors. -/
theorem retry_ceiling_witness :
    runRetry (effectiveRetries ({} : RetryOptions).retries).toNat (retryConditionImpl {})
        (fun i => .error { tag := toString i }) =
      (.error { tag := "2" }, 3) :=
  retry_ceiling_three_attempts_last_error_surfaced {} (fun i => { tag := toString i })
    rfl (fun _ => rfl)

/-- C6 counterexample: with the retryable-method set configured as
`["PUT"]`, a failed PUT with a retryable status 500 is NOT retried by the
code (it lowercases the method and compares verbatim against the set),
although a case-insensitive comparison — as the claim states — accepts it. -/
theorem retry_method_comparison_not_case_insensitive :
    retryConditionImpl upperCaseRetryOptions put500Error = false
    ∧ specRetryDecision upperCaseRetryOptions put500Error = true := by
  decide

/-- C6 amended: a custom predicate alone decides when configured;
otherwise retry exactly on a network-level failure (no response
received), or when the status is in the retryable-status set and the
LOWERCASED method is verbatim an element of the retryable-method set
(case-insensitive in effect only for lowercase-listed sets, such as the
default one). -/
theorem retry_decision_characterization :
    (∀ (ro : RetryOptions) (f : ErrInfo → Bool) (e : ErrInfo),
      ro.retryCondition = some f → retryConditionImpl ro e = f e)
    ∧ (∀ (ro : RetryOptions) (e : ErrInfo),
        ro.retryCondition = none →
        (retryConditionImpl ro e = true ↔
          isNetworkError e = true ∨
          (∃ status method, e.response = some status ∧ e.method = some method ∧
            status ∈ ro.statusCodesToRetry.getD [408, 429, 500, 502, 503, 504] ∧
            jsToLower method ∈ ro.methodsToRetry.getD
              ["get", "head", "options", "delete", "put"]))) := by
  constructor
  · intro ro f e h
    simp [retryConditionImpl, h]
  · intro ro e h
    unfold retryConditionImpl
    rw [h]
    cases hr : e.response with
    | none => simp [isNetworkError, hr]
    | some s =>
      cases hm : e.method with
      | none => simp [isNetworkError, hr, hm]
      | some m => simp [isNetworkError, hr, hm]

/-- C6 witness: the amended characterization applied to a network error
under the default options. -/
theorem retry_decision_characterization_witness :
    retryConditionImpl {} { tag := "ECONNREFUSED" } = true :=
  (retry_decision_characterization.2 {} { tag := "ECONNREFUSED" } rfl).mpr (Or.inl rfl)

/-- C7: as soon as an error middleware returns a payload that is no longer
classified as an error, the remaining error middlewares are skipped and
that payload is delivered as a fulfilled (successful) result: if the first
`k` middlewares keep rejecting and the next one resolves to a value, the
whole chain resolves to that value having invoked exactly `k + 1`
middlewares, whatever follows. -/
theorem error_middleware_resolution_short_circuits :
    ∀ (msA : List (Middleware ErrPayload)) (m : Middleware ErrPayload)
      (msB : List (Middleware ErrPayload)) (e eMid : ErrInfo) (v : JsObj),
      runErrorChain msA e = .rejected eMid msA.length →
      m.process (.jsError eMid) = .value v →
      runErrorChain (msA ++ m :: msB) e = .resolved v (msA.length + 1) := by
  intro msA
  induction msA with
  | nil =>
    intro m msB e eMid v h1 h2
    simp only [runErrorChain, List.length_nil] at h1
    injection h1 with he _
    subst he
    simp [runErrorChain, h2]
  | cons m0 t ih =>
    intro m msB e eMid v h1 h2
    rw [List.cons_append]
    simp only [runErrorChain, List.length_cons] at h1 ⊢
    cases hp : m0.process (.jsError e) with
    | value w =>
      rw [hp] at h1
      simp at h1
    | jsError e0 =>
      rw [hp] at h1
      show bumpOutcome (runErrorChain (t ++ m :: msB) e0) =
        ChainOutcome.resolved v (t.length + 1 + 1)
      have h1' : bumpOutcome (runErrorChain t e0) =
          ChainOutcome.rejected eMid (t.length + 1) := h1
      cases hrec : runErrorChain t e0 with
      | resolved w n =>
        rw [hrec] at h1'
        simp [bumpOutcome] at h1'
      | rejected e1 n =>
        rw [hrec] at h1'
        simp only [bumpOutcome] at h1'
        injection h1' with he hn
        rw [he] at hrec
        have hn2 : n = t.length := by omega
        rw [hn2] at hrec
        rw [ih m msB e0 eMid v hrec h2]
        rfl

/-- C7 witness: the 404-to-`\x7bfound: false\x7d` middleware resolves an
HTTP 404 into a fulfilled result after invoking exactly one middleware,
skipping the one registered after it. -/
theorem error_middleware_resolution_witness :
    runErrorChain (notFound404Middleware :: [passThroughMiddleware]) err404 =
      .resolved [("found", .prim (.boolean false))] 1 :=
  error_middleware_resolution_short_circuits [] notFound404Middleware
    [passThroughMiddleware] err404 err404 [("found", .prim (.boolean false))] rfl rfl

/-- C9: within a stage, the execution order computed before each pass is
sorted by ascending priority, is a permutation of the registry, preserves
the registration order of equal-priority entries (stability), the
registration functions only append, and a missing priority sorts as 0. -/
theorem middleware_order_stable_by_priority :
    ∀ (α : Type) (ms : List (Middleware α)),
      (sortMiddlewares ms).Pairwise (fun a b => prio a ≤ prio b)
      ∧ List.Perm (sortMiddlewares ms) ms
      ∧ (∀ p : Int, (sortMiddlewares ms).filter (fun m => prio m == p) =
          ms.filter (fun m => prio m == p))
      ∧ (∀ (reg : List (Middleware α)) (m : Middleware α),
          registerMiddleware reg m = reg ++ [m])
      ∧ (∀ f : α → α, prio { priority := none, process := f } = 0) := by
  intro α ms
  have htrans : ∀ a b c : Middleware α, decide (prio a ≤ prio b) → decide (prio b ≤ prio c) →
      decide (prio a ≤ prio c) = true := by
    intro a b c hab hbc
    simp only [decide_eq_true_eq] at hab hbc ⊢
    omega
  have htot : ∀ a b : Middleware α,
      (decide (prio a ≤ prio b) || decide (prio b ≤ prio a)) = true := by
    intro a b
    simp only [Bool.or_eq_true, decide_eq_true_eq]
    omega
  refine ⟨?_, List.mergeSort_perm ms _, ?_, fun reg m => rfl, fun f => rfl⟩
  · exact (List.sorted_mergeSort htrans htot ms).imp (fun h => by simpa using h)
  · intro p
    have hq : ∀ x ∈ ms.filter (fun m => prio m == p), prio x = p := by
      intro x hx
      have := (List.mem_filter.mp hx).2
      simpa using this
    have hpair : (ms.filter (fun m => prio m == p)).Pairwise
        (fun a b => decide (prio a ≤ prio b) = true) := by
      apply List.pairwise_of_forall_mem_list
      intro a ha b hb
      simp only [decide_eq_true_eq, hq a ha, hq b hb, le_refl]
    have hsub : List.Sublist (ms.filter (fun m => prio m == p))
        (List.mergeSort ms (fun a b => decide (prio a ≤ prio b))) :=
      List.sublist_mergeSort htrans htot hpair (List.filter_sublist ms)
    have hss : List.Sublist (ms.filter (fun m => prio m == p))
        ((List.mergeSort ms (fun a b => decide (prio a ≤ prio b))).filter
          (fun m => prio m == p)) := by
      have h1 := hsub.filter (fun m => prio m == p)
      rwa [List.filter_eq_self.mpr (fun a ha => (List.mem_filter.mp ha).2)] at h1
    have hperm : List.Perm
        ((List.mergeSort ms (fun a b => decide (prio a ≤ prio b))).filter
          (fun m => prio m == p))
        (ms.filter (fun m => prio m == p)) :=
      (List.mergeSort_perm ms _).filter _
    exact (hss.eq_of_length hperm.length_eq.symm).symm

/-- C10: zero is falsy at the configuration surface: `retries: 0` yields
the default of 3, and a response cached under `ttl: 0` is stored with the
default TTL of 60000 ms rather than dropped. -/
theorem zero_retries_and_zero_ttl_treated_as_unset :
    effectiveRetries (some 0) = 3 ∧ effectiveTtl (some 0) = 60000 ∧
    cacheResponseInterceptor { ttl := some 0 } {} (liveTransport pikachuConfig) =
      (liveTransport pikachuConfig,
       { entries := [(pikachuKey, safeCopy (liveTransport pikachuConfig))] },
       [.setOp pikachuKey (safeCopy (liveTransport pikachuConfig)) 60000]) := by
  decide

/-- Heap lookup commutes with an injective renaming. -/
theorem lookup_renameHeap (f : Nat → Nat) (hf : Function.Injective f)
    (h : JsHeap) (i : Nat) :
    (renameHeap f h).lookup (f i) = (h.lookup i).map (renameObj f) := by
  induction h with
  | nil => rfl
  | cons e t ih =>
    obtain ⟨k, o⟩ := e
    by_cases hik : i = k
    · subst hik
      simp [renameHeap, List.lookup]
    · have hfik : f i ≠ f k := fun hh => hik (hf hh)
      have hb1 : (f i == f k) = false := beq_eq_false_iff_ne.mpr hfik
      have hb2 : (i == k) = false := beq_eq_false_iff_ne.mpr hik
      simp only [renameHeap, List.map_cons, List.lookup, hb1, hb2]
      simpa [renameHeap] using ih

/-- If value serialization commutes with a renaming, so does field
serialization built on it. -/
theorem stringifyFieldsGo_rename (f : Nat → Nat)
    (sv svR : List Nat → JsRef → Except String (String × List Nat))
    (hsv : ∀ (seen : List Nat) (v : JsRef),
      svR (seen.map f) (renameRef f v) = (sv seen v).map (fun r => (r.1, r.2.map f))) :
    ∀ (seen : List Nat) (fields : JsObj),
      stringifyFieldsGo svR (seen.map f) (renameObj f fields) =
        (stringifyFieldsGo sv seen fields).map (fun r => (r.1, r.2.map f)) := by
  intro seen fields
  induction fields generalizing seen with
  | nil => simp [stringifyFieldsGo, renameObj, Except.map]
  | cons kv rest ih =>
    obtain ⟨k, v⟩ := kv
    have hmap : renameObj f ((k, v) :: rest) = (k, renameRef f v) :: renameObj f rest := rfl
    rw [hmap]
    simp only [stringifyFieldsGo]
    rw [hsv seen v]
    cases hv : sv seen v with
    | error e => simp [Except.map]
    | ok r =>
      simp only [Except.map]
      rw [ih r.2]
      cases hrest : stringifyFieldsGo sv r.2 rest with
      | error e => simp [Except.map]
      | ok r' =>
        have hie : (renameObj f rest).isEmpty = rest.isEmpty := by
          cases rest <;> rfl
        simp [Except.map, hie]

/-- The circular-safe serializer is invariant under injective renamings of
object identities: it depends only on the shape of the object graph, not
on which identities realize it. -/
theorem stringifyVal_rename (f : Nat → Nat) (hf : Function.Injective f) :
    ∀ (fuel : Nat) (h : JsHeap) (seen : List Nat) (v : JsRef),
      stringifyVal fuel (renameHeap f h) (seen.map f) (renameRef f v) =
        (stringifyVal fuel h seen v).map (fun r => (r.1, r.2.map f)) := by
  intro fuel
  induction fuel with
  | zero =>
    intro h seen v
    cases v with
    | prim p => cases p <;> simp [stringifyVal, renameRef, stringifyPrim, Except.map]
    | obj id =>
      rw [renameRef]
      by_cases hmem : id ∈ seen
      · have hmem2 : f id ∈ seen.map f := List.mem_map_of_mem f hmem
        simp [stringifyVal, hmem, hmem2, Except.map]
      · have hmem2 : f id ∉ seen.map f := by
          intro hx
          obtain ⟨y, hy, hfy⟩ := List.mem_map.mp hx
          exact hmem ((hf hfy) ▸ hy)
        simp [stringifyVal, hmem, hmem2, Except.map]
  | succ n ihn =>
    intro h seen v
    cases v with
    | prim p => cases p <;> simp [stringifyVal, renameRef, stringifyPrim, Except.map]
    | obj id =>
      rw [renameRef]
      by_cases hmem : id ∈ seen
      · have hmem2 : f id ∈ seen.map f := List.mem_map_of_mem f hmem
        simp [stringifyVal, hmem, hmem2, Except.map]
      · have hmem2 : f id ∉ seen.map f := by
          intro hx
          obtain ⟨y, hy, hfy⟩ := List.mem_map.mp hx
          exact hmem ((hf hfy) ▸ hy)
        simp only [stringifyVal, List.elem_eq_mem, hmem, hmem2, decide_False,
          Bool.false_eq_true, if_false]
        rw [lookup_renameHeap f hf h id]
        cases hl : h.lookup id with
        | none => simp [Except.map]
        | some fields =>
          simp only [Option.map_some']
          have hgo := stringifyFieldsGo_rename f (stringifyVal n h)
            (stringifyVal n (renameHeap f h)) (fun seen v => ihn h seen v)
            (id :: seen) fields
          rw [← List.map_cons, hgo]
          cases hrf : stringifyFieldsGo (stringifyVal n h) (id :: seen) fields with
          | error e => simp [Except.map]
          | ok r => simp [Except.map]

/-- Top-level serialization is invariant under injective renamings. -/
theorem stringifyTop_rename (f : Nat → Nat) (hf : Function.Injective f)
    (h : JsHeap) (v : JsRef) :
    stringifyTop (renameHeap f h) (renameRef f v) = stringifyTop h v := by
  unfold stringifyTop
  have hlen : (renameHeap f h).length = h.length := List.length_map h _
  rw [hlen]
  have hmain := stringifyVal_rename f hf (h.length + 1) h [] v
  simp only [List.map_nil] at hmain
  rw [hmain]
  cases stringifyVal (h.length + 1) h [] v <;> simp [Except.map]

/-- C5: default cache-key generation is total (it returns a key for every
configuration, including cyclic ones — the serializer is a total function
and serialization failures degrade to the `params-present`/`data-present`
markers) and deterministic: structurally equal configurations, i.e. ones
differing only by an injective renaming of object identities, receive
identical keys. -/
theorem default_cache_key_total_and_deterministic :
    ∀ (config : Config) (options : CacheOptions) (f : Nat → Nat),
      options.cacheKey = none →
      Function.Injective f →
      generateCacheKey (renameConfig f config) options = generateCacheKey config options := by
  intro config options f hkey hf
  unfold generateCacheKey
  rw [hkey]
  have hm : (renameConfig f config).method = config.method := rfl
  have hu : (renameConfig f config).url = config.url := rfl
  rw [hm, hu]
  have hp : (renameConfig f config).params = config.params.map (renameRef f) := rfl
  have hd : (renameConfig f config).data = config.data.map (renameRef f) := rfl
  have hh : (renameConfig f config).heap = renameHeap f config.heap := rfl
  rw [hp, hd, hh]
  cases hcp : config.params with
  | none =>
    cases hcd : config.data with
    | none => rfl
    | some dv =>
      simp only [Option.map_none', Option.map_some', Option.isSome]
      rw [stringifyTop_rename f hf config.heap dv]
  | some pv =>
    cases hcd : config.data with
    | none =>
      simp only [Option.map_none', Option.map_some', Option.isSome]
      rw [stringifyTop_rename f hf config.heap pv]
    | some dv =>
      simp only [Option.map_some', Option.isSome]
      rw [stringifyTop_rename f hf config.heap pv, stringifyTop_rename f hf config.heap dv]

/-- C5 witness: a two-object cycle renamed by the injective successor
function receives the same key, and that key carries the circular-
reference sentinel instead of diverging or throwing. -/
theorem default_cache_key_witness :
    generateCacheKey (renameConfig Nat.succ cyclicConfig) {} = generateCacheKey cyclicConfig {}
    ∧ generateCacheKey cyclicConfig {} =
        "http-cache:get:/x:\x7b\"a\":\x7b\"b\":\"[Circular Reference]\"\x7d\x7d:"
    ∧ generateCacheKey
        { method := some "get", url := some "/x",
          heap := [(0, [("n", .prim (.bigint 1))])],
          params := some (.obj 0), data := some (.prim (.str "d")) } {} =
        "http-cache:get:/x:params-present:data-present" :=
  ⟨default_cache_key_total_and_deterministic cyclicConfig {} Nat.succ rfl
      (fun _ _ hh => Nat.succ.inj hh),
   by decide, by decide⟩

end HttpRM
